import Mathlib

/-!
Verification development for `modelicares/exps/simulators.py`.

The Python module defines three context managers (`dymola_script`, `dymosim`,
`fmi`) that share a run-sequencing and artifact-management protocol: a base
option mapping that per-call keyword options overlay without mutating it, a
run counter, a period counter (`dymosim`), a tab-separated run log, and, for
`dymosim`, a sequence of file-system side effects around one subprocess
invocation per period.

The embedding below is a direct translation of the source:

* Python dict values are the inductive `Val`; a Python dict is an insertion
  ordered association list (`aset` overwrites in place, like `d[k] = v`;
  `aupdate` is `dict.update`; `aerase` is `del d[k]`).
* The file system is an association list from paths to `File` contents; the
  effect of the external simulation executable on the file system is not
  modelled, but every external action is recorded in an event trace.
* Exceptions become `Err` values; state mutated before the raise point is
  kept, as in Python (`Outcome` carries the session, the file system, the
  trace, and an optional error).
* Numeric option values (simulation times) are modelled as `Int`.
-/

/-- Value of a Python option or parameter: a number, a string, or `None`.
`None`-valued entries are skipped when a mapping is rendered. -/
inductive Val where
  | num : Int → Val
  | str : String → Val
  | none : Val
deriving DecidableEq, Repr

/-- A Python dict, as an insertion-ordered association list. -/
abbrev OptionMap := List (String × Val)

/-- First-match association-list lookup (`d[k]` on a dict with unique keys). -/
def alookup {α : Type} (k : String) : List (String × α) → Option α
  | [] => Option.none
  | p :: t => if p.1 = k then some p.2 else alookup k t

/-- Key membership test (`k in d`). -/
def acontains {α : Type} (k : String) : List (String × α) → Bool
  | [] => false
  | p :: t => if p.1 = k then true else acontains k t

/-- Python `d[k] = v`: overwrite in place if the key exists, append otherwise. -/
def aset {α : Type} (d : List (String × α)) (k : String) (v : α) :
    List (String × α) :=
  if acontains k d then d.map (fun p => if p.1 = k then (k, v) else p)
  else d ++ [(k, v)]

/-- Python `del d[k]`: remove the entry with the given key. -/
def aerase {α : Type} : List (String × α) → String → List (String × α)
  | [], _ => []
  | p :: t, k => if p.1 = k then aerase t k else p :: aerase t k

/-- Python `d.update(o)`: set every entry of `o` into `d`, in order. -/
def aupdate {α : Type} (d o : List (String × α)) : List (String × α) :=
  o.foldl (fun a p => aset a p.1 p.2) d

/-- True exactly on the `None` value. -/
def isNoneVal : Val → Bool
  | Val.none => true
  | _ => false

/-- Modelled from the spec: the parameter-to-syntax formatter (`ParamDict`
of `modelicares.exps`, an external collaborator not under `src/`) renders a
value in backend syntax; strings are emitted as-is (the callers pre-quote
where quoting is needed). -/
def renderVal : Val → String
  | Val.num n => toString n
  | Val.str s => s
  | Val.none => ""

/-- One `key=value` element of a rendered mapping. -/
def renderEntry (p : String × Val) : String :=
  p.1 ++ "=" ++ renderVal p.2

/-- The rendered elements of a mapping, skipping `None`-valued entries. -/
def renderEntries (d : OptionMap) : List String :=
  (d.filter (fun p => !(isNoneVal p.2))).map renderEntry

/-- Modelled from the spec: `str(ParamDict(d))` (external collaborator not
under `src/`) renders a mapping as `(k1=v1, k2=v2, ...)`, skipping entries
whose value is `None`, and as the empty string when nothing remains. -/
def renderParamDict (d : OptionMap) : String :=
  match renderEntries d with
  | [] => ""
  | e :: es => "(" ++ String.intercalate ", " (e :: es) ++ ")"

/-- Python slicing `s[1:-1]`: drop the first and the last character. -/
def pySlice1m1 (s : String) : String :=
  String.mk ((s.toList.drop 1).dropLast)

/-- Model of `os.path.join` for the relative, separator-free paths this
module builds (an empty left component disappears). -/
def joinPath (a b : String) : String :=
  if a = "" then b else a ++ "/" ++ b

/-- Model of `os.path.split` for the plain relative paths this module
builds: directory part and base name, split at the last separator. -/
def splitPath (p : String) : String × String :=
  let r := p.toList.reverse
  let base := (r.takeWhile (fun c => c != '/')).reverse
  if r.length = base.length then ("", String.mk base)
  else (String.mk ((r.drop (base.length + 1)).reverse), String.mk base)

/-- Model of `os.path.splitext` for plain file names: root and extension,
split at the last dot, the extension keeping the dot. -/
def splitExt (p : String) : String × String :=
  let r := p.toList.reverse
  let ext := r.takeWhile (fun c => c != '.')
  if ext.length = r.length then (p, "")
  else (String.mk ((r.drop (ext.length + 1)).reverse),
        String.mk ('.' :: ext.reverse))

/-- Splice the period number just before the file extension:
`str(n).join(os.path.splitext(result))` from `dymosim._run`. -/
def splicePeriod (period : Nat) (result : String) : String :=
  (splitExt result).1 ++ toString period ++ (splitExt result).2

/-- The OS-dependent module constants `EXE` (executable suffix) and
`EXEC_PREFIX` (prefix used to invoke a file), kept abstract so every theorem
holds on both platforms. -/
structure Platform where
  exe : String
  execPre : String
deriving DecidableEq, Repr

/-- The non-Windows instantiation: no suffix, `./` invocation. -/
def posix : Platform := { exe := "", execPre := "./" }

/-- Model of `expand_path` (external helper, out of scope per the spec):
treated as the identity on the already-plain paths used here. -/
def expand_path (p : String) : String := p

/-- Contents of an initialization file: its option entries and its
parameter entries (the key-value view the spec assigns to this format). -/
structure DsinFile where
  opts : OptionMap
  params : OptionMap
deriving DecidableEq, Repr

/-- A file in the modelled file system. -/
inductive File where
  | dsin : DsinFile → File
  | other : String → File
deriving DecidableEq, Repr

/-- The modelled file system: paths mapped to file contents. -/
abbrev FS := List (String × File)

/-- Model of `os.path.isfile`. -/
def fsIsFile (fs : FS) (p : String) : Bool :=
  (alookup p fs).isSome

/-- Modelled from the spec: `write_options` (`modelicares.exps`, not under
`src/`) writes the given option entries into the initialization file at the
given path; fails when no such file is there. -/
def writeOptionsFile (fs : FS) (path : String) (opts : OptionMap) : Option FS :=
  match alookup path fs with
  | some (File.dsin f) =>
      some (aset fs path (File.dsin { f with opts := aupdate f.opts opts }))
  | _ => Option.none

/-- Modelled from the spec: `write_params` (`modelicares.exps`, not under
`src/`) writes the given parameter entries into the initialization file at
the given path. -/
def writeParamsFile (fs : FS) (path : String) (params : OptionMap) : Option FS :=
  match alookup path fs with
  | some (File.dsin f) =>
      some (aset fs path (File.dsin { f with params := aupdate f.params params }))
  | _ => Option.none

/-- Modelled from the spec: `read_options('StartTime', path)`
(`modelicares.exps`, not under `src/`) reads the recorded start time from
the initialization-format file at the given path. -/
def readStartTime (fs : FS) (path : String) : Option Int :=
  match alookup path fs with
  | some (File.dsin f) =>
      match alookup "StartTime" f.opts with
      | some (Val.num t) => some t
      | _ => Option.none
  | _ => Option.none

/-- Error conditions of the module, named as in the spec:
`MissingExecutable` carries the executable name and the folder searched
(the assert message of `dymosim._paths`); `NoActiveRun` is the `KeyError`
raised through `__getattr__` when `_n_periods`/`_current_model` are read
before any `run`; `UnknownOption` is the `KeyError` of deleting an absent
option; `fileError` stands for the file-system errors that propagate from
`copy`/`move`/the initialization-file collaborators. -/
inductive Err where
  | missingExecutable : String → String → Err
  | noActiveRun : Err
  | unknownOption : String → Err
  | fileError : String → Err
deriving DecidableEq, Repr

/-- An externally visible side effect, in the order it is performed. -/
inductive Event where
  | writeOptions : String → OptionMap → Event
  | writeParams : String → OptionMap → Event
  | exec : List String → String → Event
  | copyFile : String → String → Event
  | moveFile : String → String → Event
  | logRow : List String → Event
deriving DecidableEq, Repr

/-- Session state of the `dymola_script` context manager.  `script` holds
the lines written to the `.mos` file after the fixed header, `runLog` the
rows of `runs.tsv` after its header row. -/
structure dymola_script where
  command : String
  results : List String
  options : OptionMap
  nRuns : Nat
  script : List String
  runLog : List (List String)
deriving DecidableEq, Repr

/-- `dymola_script.__init__`: store the command, the result names with the
`%x` placeholder substituted by the platform executable suffix, and the base
options; start the run counter at zero. -/
def dymola_script.init (plat : Platform) (command : String)
    (results : List String) (options : OptionMap) : dymola_script :=
  { command := command,
    results := results.map (fun r => r.replace "%x" plat.exe),
    options := options,
    nRuns := 0,
    script := [],
    runLog := [] }

/-- `dymola_script.__delattr__`: `del self._options[attr]`, a `KeyError`
(`UnknownOption`) when the option is absent. -/
def dymola_script.delattr (s : dymola_script) (attr : String) :
    Except Err dymola_script :=
  if acontains attr s.options then
    Except.ok { s with options := aerase s.options attr }
  else
    Except.error (Err.unknownOption attr)

/-- `dymola_script.run`: increment the run counter, overlay the call-time
options on a copy of the base options, write the run block to the script,
and append one row to the run log. -/
def dymola_script.run (s : dymola_script) (model : Option String)
    (params : OptionMap) (options : OptionMap) : dymola_script :=
  let nRuns := s.nRuns + 1
  let opts := aupdate s.options options
  let problem : Option String :=
    match model with
    | some m => if m = "" then Option.none
                else some ("\"" ++ m ++ renderParamDict params ++ "\"")
    | Option.none => Option.none
  let problemVal : Val :=
    match problem with
    | some pr => Val.str pr
    | Option.none => Val.none
  let call := s.command ++ renderParamDict (aset opts "problem" problemVal)
  let scriptLines :=
    ["// Run " ++ toString nRuns,
     "ok = " ++ call ++ ";",
     "if ok then",
     "    savelog();",
     "    dest = destination + \"" ++ toString nRuns ++ "/\";",
     "    createDirectory(dest);"]
    ++ s.results.map (fun r => "    copy(\"" ++ r ++ "\", dest + \"" ++ r ++ "\", true);")
    ++ ["end if;", "clearlog();", ""]
  let row := [toString nRuns, s.command, pySlice1m1 (renderParamDict opts),
              match problem with
              | some pr => pySlice1m1 pr
              | Option.none => ""]
  { s with nRuns := nRuns,
           script := s.script ++ scriptLines,
           runLog := s.runLog ++ [row] }

/-- Session state of the `dymosim` context manager.  `nPeriods` and
`currentModel` model the `_n_periods` and `_current_model` attributes, which
do not exist before the first `run` (`Option.none`). -/
structure dymosim where
  command : String
  resultsDir : String
  results : List String
  options : OptionMap
  nRuns : Nat
  nPeriods : Option Nat
  currentModel : Option String
  runLog : List (List String)
deriving DecidableEq, Repr

/-- `dymosim.__init__`: store the command, results directory and result
names and the base options; start the run counter at zero; `_n_periods` and
`_current_model` are not yet set. -/
def dymosim.init (command resultsDir : String) (results : List String)
    (options : OptionMap) : dymosim :=
  { command := command,
    resultsDir := expand_path resultsDir,
    results := results,
    options := options,
    nRuns := 0,
    nPeriods := Option.none,
    currentModel := Option.none,
    runLog := [] }

/-- `dymosim.__delattr__`: `del self._options[attr]`, a `KeyError`
(`UnknownOption`) when the option is absent. -/
def dymosim.delattr (s : dymosim) (attr : String) : Except Err dymosim :=
  if acontains attr s.options then
    Except.ok { s with options := aerase s.options attr }
  else
    Except.error (Err.unknownOption attr)

/-- The five paths resolved by `dymosim._paths`. -/
structure PathInfo where
  modelDir : String
  modelBase : String
  executable : String
  resultsDir : String
  dsinPath : String
deriving DecidableEq, Repr

/-- Result of `dymosim._paths`: the session (with `_current_model` possibly
stored) and either the resolved paths or the error raised. -/
structure PathsOut where
  sess : dymosim
  res : Except Err PathInfo
deriving Repr

/-- The body of `dymosim._paths` once the model path is resolved: split the
model path, name this run's results directory by the run number and this
period's initialization file by the period number, then assert that the
platform-qualified executable file exists (`MissingExecutable` otherwise,
reporting the executable name and the folder searched). -/
def dymosimPathsCore (plat : Platform) (s : dymosim) (m : String) (fs : FS) :
    PathsOut :=
  match s.nPeriods with
  | Option.none => ⟨s, Except.error Err.noActiveRun⟩
  | some period =>
    let modelDir := (splitPath m).1
    let modelBase := (splitPath m).2
    let resultsDir := joinPath s.resultsDir (toString s.nRuns)
    let dsinPath := joinPath resultsDir ("dsin" ++ toString period ++ ".txt")
    let executable := modelBase ++ plat.exe
    if fsIsFile fs (m ++ plat.exe) then
      ⟨s, Except.ok ⟨modelDir, modelBase, executable, resultsDir, dsinPath⟩⟩
    else
      ⟨s, Except.error (Err.missingExecutable executable modelDir)⟩

/-- `dymosim._paths`: a `None` model falls back to `_current_model`
(a `KeyError`, i.e. `NoActiveRun`, when that was never stored); a given
model is stored as `_current_model` before anything else. -/
def dymosim._paths (plat : Platform) (s : dymosim) (model : Option String)
    (fs : FS) : PathsOut :=
  match model with
  | Option.none =>
    match s.currentModel with
    | Option.none => ⟨s, Except.error Err.noActiveRun⟩
    | some m => dymosimPathsCore plat s m fs
  | some m => dymosimPathsCore plat { s with currentModel := some m } m fs

/-- Outcome of a `dymosim` operation: the session and file system after the
call (including mutations made before an exception), the event trace, and
the error if one was raised. -/
structure Outcome where
  sess : dymosim
  fs : FS
  trace : List Event
  err : Option Err
deriving Repr

/-- Result of copying the configured auxiliary result files. -/
structure CopyRes where
  fs : FS
  trace : List Event
  err : Option Err
deriving Repr

/-- The result-copy loop of `dymosim._run`: copy each configured result file
from the model directory into the results directory, with the period number
spliced before the extension; a missing source propagates as a file error,
stopping the loop. -/
def copyResults (fs : FS) (results : List String) (modelDir resultsDir : String)
    (period : Nat) : CopyRes :=
  match results with
  | [] => ⟨fs, [], Option.none⟩
  | r :: rest =>
    let source := joinPath modelDir r
    let destination := joinPath resultsDir (splicePeriod period r)
    match alookup source fs with
    | Option.none => ⟨fs, [], some (Err.fileError source)⟩
    | some f =>
      let out := copyResults (aset fs destination f) rest modelDir resultsDir period
      ⟨out.fs, Event.copyFile source destination :: out.trace, out.err⟩

/-- `dymosim._run`: write the merged options (base overlaid with the
call-time options) and then the parameters into the period's initialization
file, invoke the executable, copy the auxiliary result files, and append one
run-log row last.  The row's option field renders the call-time `options`
argument (source line 606), not the merged mapping. -/
def dymosim._run (plat : Platform) (s : dymosim) (fs : FS) (exe : String)
    (params options : OptionMap) (modelDir resultsDir dsinPath : String) :
    Outcome :=
  match s.nPeriods with
  | Option.none => ⟨s, fs, [], some Err.noActiveRun⟩
  | some period =>
    let dsresPath := joinPath resultsDir ("dsres" ++ toString period ++ ".mat")
    let dsfinalPath := joinPath resultsDir "dsfinal.txt"
    let opts := aupdate s.options options
    match writeOptionsFile fs dsinPath opts with
    | Option.none => ⟨s, fs, [], some (Err.fileError dsinPath)⟩
    | some fs1 =>
      match writeParamsFile fs1 dsinPath params with
      | Option.none =>
          ⟨s, fs1, [Event.writeOptions dsinPath opts], some (Err.fileError dsinPath)⟩
      | some fs2 =>
        let execEvt := Event.exec
          [plat.execPre ++ exe, s.command, "-f", dsfinalPath, dsinPath, dsresPath]
          modelDir
        let cr := copyResults fs2 s.results modelDir resultsDir period
        match cr.err with
        | some e =>
            ⟨s, cr.fs,
             Event.writeOptions dsinPath opts :: Event.writeParams dsinPath params
               :: execEvt :: cr.trace,
             some e⟩
        | Option.none =>
          let row := [toString s.nRuns, toString period,
                      pySlice1m1 (renderParamDict options), exe,
                      pySlice1m1 (renderParamDict params)]
          ⟨{ s with runLog := s.runLog ++ [row] }, cr.fs,
           Event.writeOptions dsinPath opts :: Event.writeParams dsinPath params
             :: execEvt :: (cr.trace ++ [Event.logRow row]),
           Option.none⟩

/-- `dymosim.run`: increment the run counter and reset the period counter to
one, resolve the paths (storing the model), locate the original
initialization file (generating it with the executable's `-i` action when
absent — the generated default content is modelled as an empty
initialization file), copy it to the period-1 initialization path, then call
the shared `_run`.  Directory creation is not modelled (the modelled file
system has no directories). -/
def dymosim.run (plat : Platform) (s : dymosim) (fs : FS)
    (model : Option String) (params options : OptionMap) : Outcome :=
  let s1 : dymosim := { s with nRuns := s.nRuns + 1, nPeriods := some 1 }
  let po := dymosim._paths plat s1 model fs
  match po.res with
  | Except.error e => ⟨po.sess, fs, [], some e⟩
  | Except.ok info =>
    let dsinName :=
      if info.modelBase = "dymosim" then "dsin.txt"
      else info.modelBase ++ "_dsin.txt"
    let origDsinPath := joinPath info.modelDir dsinName
    let genNeeded := !(fsIsFile fs origDsinPath)
    let fs1 := if genNeeded then aset fs origDsinPath (File.dsin ⟨[], []⟩) else fs
    let tr1 : List Event :=
      if genNeeded then
        [Event.exec [plat.execPre ++ info.executable, "-i", dsinName] info.modelDir]
      else []
    match alookup origDsinPath fs1 with
    | Option.none => ⟨po.sess, fs1, tr1, some (Err.fileError origDsinPath)⟩
    | some f =>
      let fs2 := aset fs1 info.dsinPath f
      let out := dymosim._run plat po.sess fs2 info.executable params options
                   info.modelDir info.resultsDir info.dsinPath
      ⟨out.sess, out.fs,
       tr1 ++ (Event.copyFile origDsinPath info.dsinPath :: out.trace), out.err⟩

/-- `dymosim.continue_run`: increment the period counter (a `KeyError`,
i.e. `NoActiveRun`, before any `run`), re-resolve the paths for the same
model and run, move the previous period's final-values file to the new
period's initialization path, read the recorded start time from it, override
`StartTime` and `StopTime` in the call-time options (`StopTime` is the start
time plus the duration), then call the shared `_run`. -/
def dymosim.continue_run (plat : Platform) (s : dymosim) (fs : FS)
    (duration : Int) (params options : OptionMap) : Outcome :=
  match s.nPeriods with
  | Option.none => ⟨s, fs, [], some Err.noActiveRun⟩
  | some p =>
    let s1 : dymosim := { s with nPeriods := some (p + 1) }
    let po := dymosim._paths plat s1 Option.none fs
    match po.res with
    | Except.error e => ⟨po.sess, fs, [], some e⟩
    | Except.ok info =>
      let dsfinalSrc := joinPath info.resultsDir "dsfinal.txt"
      match alookup dsfinalSrc fs with
      | Option.none => ⟨po.sess, fs, [], some (Err.fileError dsfinalSrc)⟩
      | some f =>
        let fs1 := aset (aerase fs dsfinalSrc) info.dsinPath f
        match readStartTime fs1 info.dsinPath with
        | Option.none =>
            ⟨po.sess, fs1, [Event.moveFile dsfinalSrc info.dsinPath],
             some (Err.fileError info.dsinPath)⟩
        | some startTime =>
          let options1 := aset (aset options "StartTime" (Val.num startTime))
                            "StopTime" (Val.num (startTime + duration))
          let out := dymosim._run plat po.sess fs1 info.executable params options1
                       info.modelDir info.resultsDir info.dsinPath
          ⟨out.sess, out.fs,
           Event.moveFile dsfinalSrc info.dsinPath :: out.trace, out.err⟩

/-- Descriptor of an FMU file: the model identifier stored inside it. -/
structure FmuDesc where
  modelName : String
deriving DecidableEq, Repr

/-- Modelled from the spec: a live handle of the exchange runtime (PyFMI,
external collaborator).  `name` is what `get_name()` returns — the model
identifier stored in the FMU, not the path it was loaded from; `time` is the
current simulation time. -/
structure Fmu where
  name : String
  time : Int
deriving DecidableEq, Repr

/-- Record of one `simulate` invocation: the time range and the
`result_file_name` entry of the options mapping (the fields this module
sets; the rest of the runtime's option mapping is opaque). -/
structure SimCall where
  startTime : Int
  finalTime : Int
  resultFileName : String
deriving DecidableEq, Repr

/-- Modelled from the spec: the runtime's `simulate` records its invocation
and advances the handle's current time to the final time. -/
def fmuSimulate (fmu : Fmu) (startTime finalTime : Int)
    (resultFileName : String) : SimCall × Fmu :=
  (⟨startTime, finalTime, resultFileName⟩, { fmu with time := finalTime })

/-- Session state of the `fmi` context manager: `result` is
`self._result = os.path.join(results_dir, result)` and the run counter. -/
structure fmi where
  result : String
  fmuOptions : OptionMap
  nRuns : Nat
deriving DecidableEq, Repr

/-- `fmi.__init__`: join the results directory and result prefix, store the
FMU options, start the run counter at zero. -/
def fmi.init (resultsDir result : String) (fmuOptions : OptionMap) : fmi :=
  { result := joinPath resultsDir result,
    fmuOptions := fmuOptions,
    nRuns := 0 }

/-- Modelled from the spec: `pyfmi.load_fmu` (external collaborator) loads
and initializes the FMU at the given path; the handle's name is the model
identifier read from the file. -/
def fmi.load (fmuFiles : List (String × FmuDesc)) (model : String) :
    Option Fmu :=
  match alookup model fmuFiles with
  | some d => some { name := d.modelName, time := 0 }
  | Option.none => Option.none

/-- `fmi.run`: increment the run counter, load the FMU, name the result file
from the session result prefix when it is non-empty (Python truthiness) and
from the `model` argument otherwise, suffixed with the run count and
`.txt`, and simulate over the given time range.  The `params` argument is
accepted but never applied (a gap the spec flags). -/
def fmi.run (fmuFiles : List (String × FmuDesc)) (s : fmi) (model : String)
    (startTime stopTime : Int) (params : OptionMap) :
    Option (fmi × SimCall × Fmu) :=
  let _ := params
  let s1 : fmi := { s with nRuns := s.nRuns + 1 }
  match fmi.load fmuFiles model with
  | Option.none => Option.none
  | some fmu =>
    let rfn := (if s1.result = "" then model else s1.result)
                 ++ toString s1.nRuns ++ ".txt"
    let (call, fmu1) := fmuSimulate fmu startTime stopTime rfn
    some (s1, call, fmu1)

/-- `fmi.continue_run`: read the current time off the live handle, name the
result file from the session result prefix when non-empty and from
`fmu.get_name()` otherwise (still suffixed with the unchanged run count and
`.txt`), and simulate for `duration` more.  The session is not modified. -/
def fmi.continue_run (s : fmi) (fmu : Fmu) (duration : Int)
    (params : OptionMap) : fmi × SimCall × Fmu :=
  let _ := params
  let startTime := fmu.time
  let rfn := (if s.result = "" then fmu.name else s.result)
               ++ toString s.nRuns ++ ".txt"
  let (call, fmu1) := fmuSimulate fmu startTime (startTime + duration) rfn
  (s, call, fmu1)

/-- One call on a `dymosim` session. -/
inductive Call where
  | run : Option String → OptionMap → OptionMap → Call
  | cont : Int → OptionMap → OptionMap → Call

/-- Whether a call is a `continue_run`. -/
def isCont : Call → Bool
  | Call.cont _ _ _ => true
  | _ => false

/-- Number of `run` calls in a call sequence. -/
def countRuns : List Call → Nat
  | [] => 0
  | Call.run _ _ _ :: rest => countRuns rest + 1
  | Call.cont _ _ _ :: rest => countRuns rest

/-- Execute one call on a `dymosim` session. -/
def dymosim.step (plat : Platform) (s : dymosim) (fs : FS) : Call → Outcome
  | Call.run m p o => dymosim.run plat s fs m p o
  | Call.cont d p o => dymosim.continue_run plat s fs d p o

/-- The run numbers assigned by the `run` calls of a call sequence: the
value of the run counter right after each `run` call. -/
def dymosim.runNumbers (plat : Platform) : dymosim → FS → List Call → List Nat
  | _, _, [] => []
  | s, fs, Call.run m p o :: rest =>
    let out := dymosim.run plat s fs m p o
    out.sess.nRuns :: dymosim.runNumbers plat out.sess out.fs rest
  | s, fs, Call.cont d p o :: rest =>
    let out := dymosim.continue_run plat s fs d p o
    dymosim.runNumbers plat out.sess out.fs rest

/-- The period number after each call of a call sequence (zero standing for
a period counter that was never set). -/
def dymosim.periodTrace (plat : Platform) : dymosim → FS → List Call → List Nat
  | _, _, [] => []
  | s, fs, c :: rest =>
    let out := dymosim.step plat s fs c
    (out.sess.nPeriods.getD 0) :: dymosim.periodTrace plat out.sess out.fs rest

/-- The run numbers assigned by successive `dymola_script.run` calls. -/
def dymola_script.runNumbers :
    dymola_script → List (Option String × OptionMap × OptionMap) → List Nat
  | _, [] => []
  | s, (m, p, o) :: rest =>
    let s1 := dymola_script.run s m p o
    s1.nRuns :: dymola_script.runNumbers s1 rest

/-- The list `[a, a+1, ..., a+n-1]`. -/
def rangeFrom (a : Nat) : Nat → List Nat
  | 0 => []
  | n + 1 => a :: rangeFrom (a + 1) n

/-- A fresh `dymosim` session with one base option, as in
`dymosim(StopTime=2500)`. -/
def dsimFresh : dymosim :=
  dymosim.init "-s" "" [] [("StopTime", Val.num 2500)]

/-- A file system holding the executable `dymosim` and its default
initialization file. -/
def fsReady : FS :=
  [("dymosim", File.other ""), ("dsin.txt", File.dsin ⟨[], []⟩)]

/-- A `dymosim` session in the middle of run 1, period 1 (the state after a
successful `run('dymosim')` with no auxiliary result files configured). -/
def dsimActive : dymosim :=
  { command := "-s", resultsDir := "", results := [], options := [],
    nRuns := 1, nPeriods := some 1, currentModel := some "dymosim",
    runLog := [] }

/-- A file system holding the executable and run 1's final-values file,
which records that the last period stopped at time 2500. -/
def fsCont : FS :=
  [("dymosim", File.other ""),
   ("1/dsfinal.txt", File.dsin ⟨[("StartTime", Val.num 2500)], []⟩)]

/-- A fresh `dymola_script` session with no base options. -/
def scriptFresh : dymola_script :=
  dymola_script.init posix "simulateModel" [] []

/-- One FMU file on disk: the model identifier stored inside differs from
the path. -/
def fmuFilesEx : List (String × FmuDesc) :=
  [("examples/ChuaCircuit.fmu", ⟨"ChuaCircuit"⟩)]

/-- An `fmi` session constructed with empty results directory and result
prefix, so `self._result` is empty (falsy). -/
def fmiNoRes : fmi := fmi.init "" "" []

/-- An `fmi` session with a non-empty result prefix. -/
def fmiWithRes : fmi := fmi.init "results" "run" []

/-- The ordering property of a `dymosim._run` outcome: the two
initialization-file writes (options then parameters) come first, then the
single executable invocation, then copy events only, and — exactly when the
invocation succeeded — one final log-row event, with the row also appended
to the session's run log. -/
def RunTraceOrdered (wEvt pEvt xEvt : Event) (baseLog : List (List String))
    (out : Outcome) : Prop :=
  ∃ copies : List Event,
    (∀ e ∈ copies, ∃ src dst, e = Event.copyFile src dst) ∧
    ((out.trace = [] ∧ out.err.isSome = true) ∨
     (out.trace = [wEvt] ∧ out.err.isSome = true) ∨
     (out.trace = wEvt :: pEvt :: xEvt :: copies ∧ out.err.isSome = true) ∨
     (∃ row, out.trace = wEvt :: pEvt :: xEvt :: (copies ++ [Event.logRow row]) ∧
        out.err = Option.none ∧ out.sess.runLog = baseLog ++ [row]))

theorem acontains_false_forall {α : Type} {k : String} :
    ∀ {d : List (String × α)}, acontains k d = false → ∀ p ∈ d, p.1 ≠ k
  | [], _, p, hp => absurd hp (List.not_mem_nil p)
  | q :: t, h, p, hp => by
      rw [acontains] at h
      by_cases hq : q.1 = k
      · simp [hq] at h
      · rcases List.mem_cons.mp hp with rfl | hp'
        · exact hq
        · exact acontains_false_forall (by simpa [hq] using h) p hp'

theorem alookup_append_right {α : Type} {k : String} {d : List (String × α)}
    (h : acontains k d = false) (l : List (String × α)) :
    alookup k (d ++ l) = alookup k l := by
  induction d with
  | nil => rfl
  | cons q t ih =>
      rw [acontains] at h
      by_cases hq : q.1 = k
      · simp [hq] at h
      · simpa [alookup, hq] using ih (by simpa [hq] using h)

theorem alookup_map_replace {α : Type} {k : String} {v : α} :
    ∀ {d : List (String × α)}, acontains k d = true →
      alookup k (d.map (fun p => if p.1 = k then (k, v) else p)) = some v
  | [], h => by simp [acontains] at h
  | q :: t, h => by
      by_cases hq : q.1 = k
      · simp [alookup, hq]
      · rw [acontains] at h
        simp only [List.map_cons, alookup, hq, if_neg hq, if_false]
        exact alookup_map_replace (by simpa [hq] using h)

theorem alookup_map_replace_ne {α : Type} {k k' : String} (hne : k' ≠ k) (v : α) :
    ∀ (d : List (String × α)),
      alookup k' (d.map (fun p => if p.1 = k then (k, v) else p)) = alookup k' d
  | [] => rfl
  | q :: t => by
      by_cases hq : q.1 = k
      · have : ¬ (k = k') := fun h => hne h.symm
        simp [alookup, hq, this, alookup_map_replace_ne hne v t]
      · simp only [List.map_cons, if_neg hq, alookup]
        by_cases hq' : q.1 = k'
        · simp [hq']
        · simp [hq', alookup_map_replace_ne hne v t]

theorem alookup_aset_self {α : Type} (d : List (String × α)) (k : String) (v : α) :
    alookup k (aset d k v) = some v := by
  unfold aset
  by_cases h : acontains k d = true
  · simpa [h] using alookup_map_replace h
  · have h' : acontains k d = false := by simpa using h
    simp only [h', Bool.false_eq_true, if_false]
    rw [alookup_append_right h']
    simp [alookup]

theorem alookup_aset_ne {α : Type} {k k' : String} (hne : k' ≠ k)
    (d : List (String × α)) (v : α) :
    alookup k' (aset d k v) = alookup k' d := by
  unfold aset
  by_cases h : acontains k d = true
  · simpa [h] using alookup_map_replace_ne hne v d
  · have h' : acontains k d = false := by simpa using h
    simp only [h', Bool.false_eq_true, if_false]
    induction d with
    | nil =>
        have hk : ¬ (k = k') := fun h => hne h.symm
        simp [alookup, hk]
    | cons q t ih =>
        by_cases hq : q.1 = k'
        · simp [alookup, hq]
        · rw [acontains] at h'
          by_cases hqk : q.1 = k
          · simp [hqk] at h'
          · simp only [List.cons_append, alookup, hq, if_false]
            exact ih (by simpa [hqk] using h') (by simpa [hqk] using h')

theorem acontains_map_replace {α : Type} {k k' : String} (v : α) :
    ∀ (d : List (String × α)),
      acontains k' (d.map (fun p => if p.1 = k then (k, v) else p)) = acontains k' d
  | [] => rfl
  | q :: t => by
      by_cases hq : q.1 = k
      · by_cases hq' : k = k'
        · simp [acontains, hq, hq', acontains_map_replace v t]
        · have : ¬ (q.1 = k') := by rw [hq]; exact hq'
          simp [acontains, hq, hq', this, acontains_map_replace v t]
      · simp only [List.map_cons, if_neg hq, acontains]
        by_cases hq' : q.1 = k'
        · simp [hq']
        · simp [hq', acontains_map_replace v t]

theorem acontains_append {α : Type} (k : String) :
    ∀ (d l : List (String × α)),
      acontains k (d ++ l) = (acontains k d || acontains k l)
  | [], l => rfl
  | q :: t, l => by
      by_cases hq : q.1 = k
      · simp [acontains, hq]
      · simp [acontains, hq, acontains_append k t l]

theorem acontains_aset_self {α : Type} (d : List (String × α)) (k : String) (v : α) :
    acontains k (aset d k v) = true := by
  unfold aset
  by_cases h : acontains k d = true
  · simpa [h] using (acontains_map_replace v d).trans h
  · have h' : acontains k d = false := by simpa using h
    simp [h', acontains_append, acontains]

theorem acontains_aset_of {α : Type} {k' : String} {d : List (String × α)}
    (h : acontains k' d = true) (k : String) (v : α) :
    acontains k' (aset d k v) = true := by
  unfold aset
  by_cases hc : acontains k d = true
  · simpa [hc] using (acontains_map_replace v d).trans h
  · have hc' : acontains k d = false := by simpa using hc
    simp [hc', acontains_append, h]

theorem mem_aset_key_eq {α : Type} {p : String × α} {d : List (String × α)}
    {k : String} {v : α} (hmem : p ∈ aset d k v) (hk : p.1 = k) : p.2 = v := by
  unfold aset at hmem
  by_cases hc : acontains k d = true
  · rw [if_pos hc] at hmem
    obtain ⟨q, hq, hfq⟩ := List.mem_map.mp hmem
    by_cases hqk : q.1 = k
    · rw [if_pos hqk] at hfq
      rw [← hfq]
    · rw [if_neg hqk] at hfq
      exact absurd (hfq ▸ hk) hqk
  · have hc' : acontains k d = false := by simpa using hc
    rw [if_neg (by simp [hc'])] at hmem
    rcases List.mem_append.mp hmem with hd | hs
    · exact absurd hk (acontains_false_forall hc' p hd)
    · rcases List.mem_singleton.mp hs with rfl
      rfl

theorem mem_aset_key_ne {α : Type} {p : String × α} {d : List (String × α)}
    {k : String} {v : α} (hmem : p ∈ aset d k v) (hk : p.1 ≠ k) : p ∈ d := by
  unfold aset at hmem
  by_cases hc : acontains k d = true
  · rw [if_pos hc] at hmem
    obtain ⟨q, hq, hfq⟩ := List.mem_map.mp hmem
    by_cases hqk : q.1 = k
    · rw [if_pos hqk] at hfq
      exact absurd (hfq ▸ rfl) hk
    · rw [if_neg hqk] at hfq
      exact hfq ▸ hq
  · have hc' : acontains k d = false := by simpa using hc
    rw [if_neg (by simp [hc'])] at hmem
    rcases List.mem_append.mp hmem with hd | hs
    · exact hd
    · rcases List.mem_singleton.mp hs with rfl
      exact absurd rfl hk

theorem aupdate_cons {α : Type} (d : List (String × α)) (q : String × α)
    (t : List (String × α)) :
    aupdate d (q :: t) = aupdate (aset d q.1 q.2) t := rfl

theorem alookup_aupdate_not_contains {α : Type} {k : String} :
    ∀ {o : List (String × α)}, acontains k o = false →
      ∀ (d : List (String × α)), alookup k (aupdate d o) = alookup k d
  | [], _, d => rfl
  | q :: t, h, d => by
      rw [acontains] at h
      by_cases hq : q.1 = k
      · simp [hq] at h
      · rw [aupdate_cons]
        rw [alookup_aupdate_not_contains (by simpa [hq] using h) (aset d q.1 q.2)]
        exact alookup_aset_ne (fun he => hq he.symm) d q.2

theorem alookup_aupdate_const {α : Type} {k : String} {v : α} :
    ∀ {o : List (String × α)}, (∀ p ∈ o, p.1 = k → p.2 = v) →
      acontains k o = true →
      ∀ (d : List (String × α)), alookup k (aupdate d o) = some v
  | [], _, hc, _ => by simp [acontains] at hc
  | q :: t, hall, hc, d => by
      by_cases hct : acontains k t = true
      · rw [aupdate_cons]
        exact alookup_aupdate_const
          (fun p hp => hall p (List.mem_cons_of_mem q hp)) hct (aset d q.1 q.2)
      · have hct' : acontains k t = false := by simpa using hct
        rw [acontains] at hc
        have hqk : q.1 = k := by
          by_cases hq : q.1 = k
          · exact hq
          · simp [hq, hct'] at hc
        have hqv : q.2 = v := hall q (List.mem_cons_self q t) hqk
        rw [aupdate_cons, alookup_aupdate_not_contains hct' (aset d q.1 q.2),
            hqk, hqv]
        exact alookup_aset_self d k v

theorem aupdate_nil {α : Type} (d : List (String × α)) : aupdate d [] = d := rfl

theorem aset_not_contains {α : Type} {k : String} {d : List (String × α)}
    (h : acontains k d = false) (v : α) : aset d k v = d ++ [(k, v)] := by
  unfold aset
  simp [h]

theorem renderParamDict_append_none (d : OptionMap) (k : String) :
    renderParamDict (d ++ [(k, Val.none)]) = renderParamDict d := by
  unfold renderParamDict renderEntries
  rw [List.filter_append]
  simp [isNoneVal]

theorem dymosimPathsCore_sess (plat : Platform) (s : dymosim) (m : String)
    (fs : FS) : (dymosimPathsCore plat s m fs).sess = s := by
  unfold dymosimPathsCore
  split
  · rfl
  · split <;> rfl

theorem paths_sess_shape (plat : Platform) (s : dymosim) (model : Option String)
    (fs : FS) :
    ∃ cm, (dymosim._paths plat s model fs).sess = { s with currentModel := cm } := by
  unfold dymosim._paths
  match model with
  | Option.none =>
      match hcm : s.currentModel with
      | Option.none =>
          refine ⟨Option.none, ?_⟩
          show s = { s with currentModel := Option.none }
          rw [← hcm]
      | some m =>
          refine ⟨s.currentModel, ?_⟩
          simp only [hcm, dymosimPathsCore_sess]
          rw [← hcm]
  | some m => exact ⟨some m, dymosimPathsCore_sess plat _ m fs⟩

theorem paths_none_sess (plat : Platform) (s : dymosim) (fs : FS) :
    (dymosim._paths plat s Option.none fs).sess = s := by
  unfold dymosim._paths
  match hcm : s.currentModel with
  | Option.none => simp [hcm]
  | some m => simp [hcm, dymosimPathsCore_sess]

theorem paths_sess_nRuns (plat : Platform) (s : dymosim) (model : Option String)
    (fs : FS) : (dymosim._paths plat s model fs).sess.nRuns = s.nRuns := by
  obtain ⟨cm, h⟩ := paths_sess_shape plat s model fs
  rw [h]

theorem paths_sess_nPeriods (plat : Platform) (s : dymosim)
    (model : Option String) (fs : FS) :
    (dymosim._paths plat s model fs).sess.nPeriods = s.nPeriods := by
  obtain ⟨cm, h⟩ := paths_sess_shape plat s model fs
  rw [h]

theorem paths_sess_options (plat : Platform) (s : dymosim)
    (model : Option String) (fs : FS) :
    (dymosim._paths plat s model fs).sess.options = s.options := by
  obtain ⟨cm, h⟩ := paths_sess_shape plat s model fs
  rw [h]

theorem paths_sess_runLog (plat : Platform) (s : dymosim)
    (model : Option String) (fs : FS) :
    (dymosim._paths plat s model fs).sess.runLog = s.runLog := by
  obtain ⟨cm, h⟩ := paths_sess_shape plat s model fs
  rw [h]

theorem run_shared_sess_shape (plat : Platform) (s : dymosim) (fs : FS)
    (exe : String) (params options : OptionMap)
    (modelDir resultsDir dsinPath : String) :
    ∃ lg, (dymosim._run plat s fs exe params options
             modelDir resultsDir dsinPath).sess = { s with runLog := lg } := by
  unfold dymosim._run
  split
  · exact ⟨s.runLog, rfl⟩
  · dsimp only
    split
    · exact ⟨s.runLog, rfl⟩
    · split
      · exact ⟨s.runLog, rfl⟩
      · split
        · exact ⟨s.runLog, rfl⟩
        · exact ⟨_, rfl⟩

theorem run_shared_sess_nRuns (plat : Platform) (s : dymosim) (fs : FS)
    (exe : String) (params options : OptionMap)
    (modelDir resultsDir dsinPath : String) :
    (dymosim._run plat s fs exe params options
       modelDir resultsDir dsinPath).sess.nRuns = s.nRuns := by
  obtain ⟨lg, h⟩ := run_shared_sess_shape plat s fs exe params options
    modelDir resultsDir dsinPath
  rw [h]

theorem run_shared_sess_nPeriods (plat : Platform) (s : dymosim) (fs : FS)
    (exe : String) (params options : OptionMap)
    (modelDir resultsDir dsinPath : String) :
    (dymosim._run plat s fs exe params options
       modelDir resultsDir dsinPath).sess.nPeriods = s.nPeriods := by
  obtain ⟨lg, h⟩ := run_shared_sess_shape plat s fs exe params options
    modelDir resultsDir dsinPath
  rw [h]

theorem run_shared_sess_options (plat : Platform) (s : dymosim) (fs : FS)
    (exe : String) (params options : OptionMap)
    (modelDir resultsDir dsinPath : String) :
    (dymosim._run plat s fs exe params options
       modelDir resultsDir dsinPath).sess.options = s.options := by
  obtain ⟨lg, h⟩ := run_shared_sess_shape plat s fs exe params options
    modelDir resultsDir dsinPath
  rw [h]

theorem run_sess_nRuns (plat : Platform) (s : dymosim) (fs : FS)
    (model : Option String) (params options : OptionMap) :
    (dymosim.run plat s fs model params options).sess.nRuns = s.nRuns + 1 := by
  unfold dymosim.run
  dsimp only
  split
  · rw [paths_sess_nRuns]
  · split
    · rw [paths_sess_nRuns]
    · rw [run_shared_sess_nRuns, paths_sess_nRuns]

theorem run_sess_nPeriods (plat : Platform) (s : dymosim) (fs : FS)
    (model : Option String) (params options : OptionMap) :
    (dymosim.run plat s fs model params options).sess.nPeriods = some 1 := by
  unfold dymosim.run
  dsimp only
  split
  · rw [paths_sess_nPeriods]
  · split
    · rw [paths_sess_nPeriods]
    · rw [run_shared_sess_nPeriods, paths_sess_nPeriods]

theorem run_sess_options (plat : Platform) (s : dymosim) (fs : FS)
    (model : Option String) (params options : OptionMap) :
    (dymosim.run plat s fs model params options).sess.options = s.options := by
  unfold dymosim.run
  dsimp only
  split
  · rw [paths_sess_options]
  · split
    · rw [paths_sess_options]
    · rw [run_shared_sess_options, paths_sess_options]

theorem continue_run_none (plat : Platform) (s : dymosim) (fs : FS)
    (duration : Int) (params options : OptionMap)
    (h : s.nPeriods = Option.none) :
    dymosim.continue_run plat s fs duration params options
      = ⟨s, fs, [], some Err.noActiveRun⟩ := by
  unfold dymosim.continue_run
  rw [h]

theorem continue_run_sess_nRuns (plat : Platform) (s : dymosim) (fs : FS)
    (duration : Int) (params options : OptionMap) :
    (dymosim.continue_run plat s fs duration params options).sess.nRuns
      = s.nRuns := by
  unfold dymosim.continue_run
  split
  · rfl
  · dsimp only
    split
    · rw [paths_none_sess]
    · split
      · rw [paths_none_sess]
      · split
        · rw [paths_none_sess]
        · rw [run_shared_sess_nRuns, paths_none_sess]

theorem continue_run_sess_options (plat : Platform) (s : dymosim) (fs : FS)
    (duration : Int) (params options : OptionMap) :
    (dymosim.continue_run plat s fs duration params options).sess.options
      = s.options := by
  unfold dymosim.continue_run
  split
  · rfl
  · dsimp only
    split
    · rw [paths_none_sess]
    · split
      · rw [paths_none_sess]
      · split
        · rw [paths_none_sess]
        · rw [run_shared_sess_options, paths_none_sess]

theorem continue_run_sess_nPeriods (plat : Platform) (s : dymosim) (fs : FS)
    (duration : Int) (params options : OptionMap) {p : Nat}
    (hp : s.nPeriods = some p) :
    (dymosim.continue_run plat s fs duration params options).sess.nPeriods
      = some (p + 1) := by
  unfold dymosim.continue_run
  rw [hp]
  dsimp only
  split
  · rw [paths_none_sess]
  · split
    · rw [paths_none_sess]
    · split
      · rw [paths_none_sess]
      · rw [run_shared_sess_nPeriods, paths_none_sess]

theorem dymola_run_nRuns (s : dymola_script) (model : Option String)
    (params options : OptionMap) :
    (dymola_script.run s model params options).nRuns = s.nRuns + 1 := rfl

theorem dymola_runNumbers_general :
    ∀ (calls : List (Option String × OptionMap × OptionMap)) (s : dymola_script),
      dymola_script.runNumbers s calls = rangeFrom (s.nRuns + 1) calls.length
  | [], _ => rfl
  | (m, p, o) :: rest, s => by
      rw [dymola_script.runNumbers, List.length_cons, rangeFrom]
      rw [dymola_runNumbers_general rest, dymola_run_nRuns]

theorem dymosim_runNumbers_general (plat : Platform) :
    ∀ (calls : List Call) (s : dymosim) (fs : FS),
      dymosim.runNumbers plat s fs calls = rangeFrom (s.nRuns + 1) (countRuns calls)
  | [], _, _ => rfl
  | Call.run m p o :: rest, s, fs => by
      rw [dymosim.runNumbers, countRuns, rangeFrom]
      rw [dymosim_runNumbers_general plat rest, run_sess_nRuns]
  | Call.cont d p o :: rest, s, fs => by
      rw [dymosim.runNumbers, countRuns]
      rw [dymosim_runNumbers_general plat rest, continue_run_sess_nRuns]

theorem dymosim_periodTrace_conts (plat : Platform) :
    ∀ (conts : List Call) (s : dymosim) (fs : FS) (p : Nat),
      (∀ c ∈ conts, isCont c = true) → s.nPeriods = some p →
      dymosim.periodTrace plat s fs conts = rangeFrom (p + 1) conts.length
  | [], _, _, _, _, _ => rfl
  | Call.run m ps o :: rest, _, _, _, hall, _ => by
      have hc := hall _ (List.mem_cons_self (Call.run m ps o) rest)
      simp [isCont] at hc
  | Call.cont d ps o :: rest, s, fs, p, hall, hp => by
      rw [dymosim.periodTrace, List.length_cons, rangeFrom]
      have hnp := continue_run_sess_nPeriods plat s fs d ps o hp
      rw [dymosim.step, hnp]
      rw [dymosim_periodTrace_conts plat rest _ _ (p + 1)
        (fun x hx => hall x (List.mem_cons_of_mem (Call.cont d ps o) hx)) hnp]
      rfl

theorem dymosim_periodTrace_run (plat : Platform) (s : dymosim) (fs : FS)
    (m : Option String) (ps o : OptionMap) (conts : List Call)
    (hall : ∀ c ∈ conts, isCont c = true) :
    dymosim.periodTrace plat s fs (Call.run m ps o :: conts)
      = rangeFrom 1 (conts.length + 1) := by
  rw [dymosim.periodTrace, rangeFrom]
  have hnp := run_sess_nPeriods plat s fs m ps o
  rw [dymosim.step, hnp]
  rw [dymosim_periodTrace_conts plat conts _ _ 1 hall hnp]
  rfl

theorem copyResults_trace_copies :
    ∀ (results : List String) (fs : FS) (modelDir resultsDir : String)
      (period : Nat) (e : Event),
      e ∈ (copyResults fs results modelDir resultsDir period).trace →
      ∃ src dst, e = Event.copyFile src dst
  | [], _, _, _, _, _, h => absurd h (List.not_mem_nil _)
  | r :: rest, fs, modelDir, resultsDir, period, e, h => by
      rw [copyResults] at h
      rcases hl : alookup (joinPath modelDir r) fs with _ | f
      · rw [hl] at h
        exact absurd h (List.not_mem_nil _)
      · rw [hl] at h
        dsimp only at h
        rcases List.mem_cons.mp h with rfl | h'
        · exact ⟨joinPath modelDir r,
            joinPath resultsDir (splicePeriod period r), rfl⟩
        · exact copyResults_trace_copies rest _ modelDir resultsDir period e h'

theorem run_shared_cases (plat : Platform) (s : dymosim) (fs : FS) (exe : String)
    (params options : OptionMap) (mdir rdir dsin : String) :
    (s.nPeriods = Option.none ∧
      dymosim._run plat s fs exe params options mdir rdir dsin
        = ⟨s, fs, [], some Err.noActiveRun⟩) ∨
    (∃ period, s.nPeriods = some period ∧
      writeOptionsFile fs dsin (aupdate s.options options) = Option.none ∧
      dymosim._run plat s fs exe params options mdir rdir dsin
        = ⟨s, fs, [], some (Err.fileError dsin)⟩) ∨
    (∃ period fs1, s.nPeriods = some period ∧
      writeOptionsFile fs dsin (aupdate s.options options) = some fs1 ∧
      writeParamsFile fs1 dsin params = Option.none ∧
      dymosim._run plat s fs exe params options mdir rdir dsin
        = ⟨s, fs1, [Event.writeOptions dsin (aupdate s.options options)],
           some (Err.fileError dsin)⟩) ∨
    (∃ period fs1 fs2 e, s.nPeriods = some period ∧
      writeOptionsFile fs dsin (aupdate s.options options) = some fs1 ∧
      writeParamsFile fs1 dsin params = some fs2 ∧
      (copyResults fs2 s.results mdir rdir period).err = some e ∧
      dymosim._run plat s fs exe params options mdir rdir dsin
        = ⟨s, (copyResults fs2 s.results mdir rdir period).fs,
           Event.writeOptions dsin (aupdate s.options options)
             :: Event.writeParams dsin params
             :: Event.exec [plat.execPre ++ exe, s.command, "-f",
                  joinPath rdir "dsfinal.txt", dsin,
                  joinPath rdir ("dsres" ++ toString period ++ ".mat")] mdir
             :: (copyResults fs2 s.results mdir rdir period).trace,
           some e⟩) ∨
    (∃ period fs1 fs2, s.nPeriods = some period ∧
      writeOptionsFile fs dsin (aupdate s.options options) = some fs1 ∧
      writeParamsFile fs1 dsin params = some fs2 ∧
      (copyResults fs2 s.results mdir rdir period).err = Option.none ∧
      dymosim._run plat s fs exe params options mdir rdir dsin
        = ⟨{ s with runLog := s.runLog ++
              [[toString s.nRuns, toString period,
                pySlice1m1 (renderParamDict options), exe,
                pySlice1m1 (renderParamDict params)]] },
           (copyResults fs2 s.results mdir rdir period).fs,
           Event.writeOptions dsin (aupdate s.options options)
             :: Event.writeParams dsin params
             :: Event.exec [plat.execPre ++ exe, s.command, "-f",
                  joinPath rdir "dsfinal.txt", dsin,
                  joinPath rdir ("dsres" ++ toString period ++ ".mat")] mdir
             :: ((copyResults fs2 s.results mdir rdir period).trace
                  ++ [Event.logRow
                       [toString s.nRuns, toString period,
                        pySlice1m1 (renderParamDict options), exe,
                        pySlice1m1 (renderParamDict params)]]),
           Option.none⟩) := by
  unfold dymosim._run
  split
  next hnp => exact Or.inl ⟨hnp, rfl⟩
  next period hnp =>
    dsimp only
    split
    next h1 => exact Or.inr (Or.inl ⟨period, hnp, h1, rfl⟩)
    next fs1 h1 =>
      split
      next h2 => exact Or.inr (Or.inr (Or.inl ⟨period, fs1, hnp, h1, h2, rfl⟩))
      next fs2 h2 =>
        split
        next e h3 =>
          exact Or.inr (Or.inr (Or.inr (Or.inl
            ⟨period, fs1, fs2, e, hnp, h1, h2, h3, rfl⟩)))
        next h3 =>
          exact Or.inr (Or.inr (Or.inr (Or.inr
            ⟨period, fs1, fs2, hnp, h1, h2, h3, rfl⟩)))

/-- C2: for every `run`/`continue_run` call with per-call keyword options,
the session's persisted base OptionSet after the call equals the OptionSet
before the call — call-time overrides are merged into a copy for the
invocation and never persist into or mutate the base mapping. -/
theorem claim_C2 :
    (∀ (s : dymola_script) (model : Option String) (params options : OptionMap),
       (dymola_script.run s model params options).options = s.options) ∧
    (∀ (plat : Platform) (s : dymosim) (fs : FS) (model : Option String)
       (params options : OptionMap),
       (dymosim.run plat s fs model params options).sess.options = s.options) ∧
    (∀ (plat : Platform) (s : dymosim) (fs : FS) (duration : Int)
       (params options : OptionMap),
       (dymosim.continue_run plat s fs duration params options).sess.options
         = s.options) :=
  ⟨fun _ _ _ _ => rfl, run_sess_options, continue_run_sess_options⟩

/-- C6: calling `continue_run` on a `dymosim` session before any `run` call
on that session fails with a `NoActiveRun` condition (the `KeyError` on the
unset `_n_periods` attribute), before any side effect. -/
theorem claim_C6 (plat : Platform) (command resultsDir : String)
    (results : List String) (options : OptionMap) (fs : FS) (duration : Int)
    (params callOptions : OptionMap) :
    dymosim.continue_run plat (dymosim.init command resultsDir results options)
        fs duration params callOptions
      = ⟨dymosim.init command resultsDir results options, fs, [],
         some Err.noActiveRun⟩ :=
  continue_run_none plat _ fs duration params callOptions rfl

/-- C7: deleting an attribute/option that is not present in the session's
option overlay — on either `dymola_script` or `dymosim` — fails with an
`UnknownOption` condition. -/
theorem claim_C7 (s : dymola_script) (s2 : dymosim) (attr : String)
    (h1 : acontains attr s.options = false)
    (h2 : acontains attr s2.options = false) :
    dymola_script.delattr s attr = Except.error (Err.unknownOption attr) ∧
    dymosim.delattr s2 attr = Except.error (Err.unknownOption attr) := by
  constructor
  · unfold dymola_script.delattr
    simp [h1]
  · unfold dymosim.delattr
    simp [h2]

/-- Witness for C7 at a concrete input: `Tolerance` was never set on either
fresh session, and deleting it fails with `UnknownOption`. -/
theorem claim_C7_witness :
    acontains "Tolerance" scriptFresh.options = false ∧
    acontains "Tolerance" dsimFresh.options = false ∧
    (dymola_script.delattr scriptFresh "Tolerance"
        = Except.error (Err.unknownOption "Tolerance") ∧
     dymosim.delattr dsimFresh "Tolerance"
        = Except.error (Err.unknownOption "Tolerance")) :=
  ⟨by decide, by decide,
   claim_C7 scriptFresh dsimFresh "Tolerance" (by decide) (by decide)⟩

/-- C5: in every invocation of `dymosim._run` the side effects occur in this
order — the merged options and the parameters are fully written to the
period's initialization file before the executable is invoked, every
auxiliary-result copy happens only after the invocation, and the run-log row
is written last, exactly when the invocation succeeded. -/
theorem claim_C5 (plat : Platform) (s : dymosim) (fs : FS) (exe : String)
    (params options : OptionMap) (modelDir resultsDir dsinPath : String) :
    RunTraceOrdered
      (Event.writeOptions dsinPath (aupdate s.options options))
      (Event.writeParams dsinPath params)
      (Event.exec [plat.execPre ++ exe, s.command, "-f",
         joinPath resultsDir "dsfinal.txt", dsinPath,
         joinPath resultsDir ("dsres" ++ toString (s.nPeriods.getD 0) ++ ".mat")]
        modelDir)
      s.runLog
      (dymosim._run plat s fs exe params options modelDir resultsDir dsinPath) := by
  rcases run_shared_cases plat s fs exe params options modelDir resultsDir dsinPath
    with ⟨hnp, heq⟩ | ⟨period, hnp, h1, heq⟩ | ⟨period, fs1, hnp, h1, h2, heq⟩ |
      ⟨period, fs1, fs2, e, hnp, h1, h2, h3, heq⟩ |
      ⟨period, fs1, fs2, hnp, h1, h2, h3, heq⟩
  · exact ⟨[], by simp, Or.inl (by rw [heq]; exact ⟨rfl, rfl⟩)⟩
  · exact ⟨[], by simp, Or.inl (by rw [heq]; exact ⟨rfl, rfl⟩)⟩
  · exact ⟨[], by simp, Or.inr (Or.inl (by rw [heq]; exact ⟨rfl, rfl⟩))⟩
  · refine ⟨(copyResults fs2 s.results modelDir resultsDir period).trace,
      fun e2 he => copyResults_trace_copies _ _ _ _ _ e2 he,
      Or.inr (Or.inr (Or.inl ?_))⟩
    rw [heq, hnp]
    exact ⟨rfl, rfl⟩
  · refine ⟨(copyResults fs2 s.results modelDir resultsDir period).trace,
      fun e2 he => copyResults_trace_copies _ _ _ _ _ e2 he,
      Or.inr (Or.inr (Or.inr ⟨[toString s.nRuns, toString period,
        pySlice1m1 (renderParamDict options), exe,
        pySlice1m1 (renderParamDict params)], ?_⟩))⟩
    rw [heq, hnp]
    exact ⟨rfl, rfl, rfl⟩

/-- C1: run numbers assigned by successive `run` calls on a fresh session
are exactly `1..n` in call order, for both `dymola_script` and (across any
interleaving with `continue_run`) `dymosim`; within a `dymosim` run the
period numbers are exactly `1..m`, with `run` creating period 1 and each
`continue_run` the next period. -/
theorem claim_C1 :
    (∀ (plat : Platform) (command : String) (results : List String)
       (options : OptionMap)
       (calls : List (Option String × OptionMap × OptionMap)),
       dymola_script.runNumbers (dymola_script.init plat command results options)
         calls = rangeFrom 1 calls.length) ∧
    (∀ (plat : Platform) (command resultsDir : String) (results : List String)
       (options : OptionMap) (fs : FS) (calls : List Call),
       dymosim.runNumbers plat (dymosim.init command resultsDir results options)
         fs calls = rangeFrom 1 (countRuns calls)) ∧
    (∀ (plat : Platform) (s : dymosim) (fs : FS) (m : Option String)
       (ps o : OptionMap) (conts : List Call),
       (∀ c ∈ conts, isCont c = true) →
       dymosim.periodTrace plat s fs (Call.run m ps o :: conts)
         = rangeFrom 1 (conts.length + 1)) := by
  refine ⟨?_, ?_, ?_⟩
  · intro plat command results options calls
    exact dymola_runNumbers_general calls _
  · intro plat command resultsDir results options fs calls
    exact dymosim_runNumbers_general plat calls _ fs
  · intro plat s fs m ps o conts hall
    exact dymosim_periodTrace_run plat s fs m ps o conts hall

/-- Witness for C1 at a concrete input: one `run` followed by two
`continue_run` calls yields period numbers 1, 2, 3. -/
theorem claim_C1_witness :
    (∀ c ∈ [Call.cont 100 [] [], Call.cont 50 [] []], isCont c = true) ∧
    dymosim.periodTrace posix dsimFresh fsReady
        (Call.run (some "dymosim") [] []
          :: [Call.cont 100 [] [], Call.cont 50 [] []])
      = rangeFrom 1 3 :=
  ⟨by decide,
   claim_C1.2.2 posix dsimFresh fsReady (some "dymosim") [] []
     [Call.cont 100 [] [], Call.cont 50 [] []] (by decide)⟩

/-- C8: for every model path whose platform-qualified executable file does
not exist, `dymosim._paths` — and therefore `run` and `continue_run`, which
call it — fails fast with a `MissingExecutable` condition reporting the
executable name and the folder searched, before any subprocess is invoked
(the trace is empty). -/
theorem claim_C8 (plat : Platform) (s : dymosim) (fs : FS) (m : String)
    (params callOptions : OptionMap) (duration : Int) (p : Nat)
    (hp : s.nPeriods = some p)
    (hm : s.currentModel = some m)
    (hmiss : fsIsFile fs (m ++ plat.exe) = false) :
    (dymosim._paths plat s (some m) fs).res
        = Except.error
            (Err.missingExecutable ((splitPath m).2 ++ plat.exe) (splitPath m).1) ∧
    ((dymosim.run plat s fs (some m) params callOptions).err
        = some (Err.missingExecutable ((splitPath m).2 ++ plat.exe)
                 (splitPath m).1) ∧
     (dymosim.run plat s fs (some m) params callOptions).trace = []) ∧
    ((dymosim.continue_run plat s fs duration params callOptions).err
        = some (Err.missingExecutable ((splitPath m).2 ++ plat.exe)
                 (splitPath m).1) ∧
     (dymosim.continue_run plat s fs duration params callOptions).trace = []) := by
  refine ⟨?_, ⟨?_, ?_⟩, ?_, ?_⟩
  · simp [dymosim._paths, dymosimPathsCore, hp, hmiss]
  · simp [dymosim.run, dymosim._paths, dymosimPathsCore, hmiss]
  · simp [dymosim.run, dymosim._paths, dymosimPathsCore, hmiss]
  · simp [dymosim.continue_run, dymosim._paths, dymosimPathsCore, hp, hm, hmiss]
  · simp [dymosim.continue_run, dymosim._paths, dymosimPathsCore, hp, hm, hmiss]

/-- Witness for C8 at a concrete input: on an empty file system the
executable `dymosim` is missing, and both entry points fail with
`MissingExecutable` without emitting any event. -/
theorem claim_C8_witness :
    dsimActive.nPeriods = some 1 ∧
    dsimActive.currentModel = some "dymosim" ∧
    fsIsFile [] ("dymosim" ++ posix.exe) = false ∧
    ((dymosim._paths posix dsimActive (some "dymosim") []).res
        = Except.error
            (Err.missingExecutable ((splitPath "dymosim").2 ++ posix.exe)
              (splitPath "dymosim").1) ∧
     ((dymosim.run posix dsimActive [] (some "dymosim") [] []).err
        = some (Err.missingExecutable ((splitPath "dymosim").2 ++ posix.exe)
                 (splitPath "dymosim").1) ∧
      (dymosim.run posix dsimActive [] (some "dymosim") [] []).trace = []) ∧
     ((dymosim.continue_run posix dsimActive [] 100 [] []).err
        = some (Err.missingExecutable ((splitPath "dymosim").2 ++ posix.exe)
                 (splitPath "dymosim").1) ∧
      (dymosim.continue_run posix dsimActive [] 100 [] []).trace = [])) :=
  ⟨rfl, rfl, rfl,
   claim_C8 posix dsimActive [] "dymosim" [] [] 100 1 rfl rfl rfl⟩

/-- C9: for `run(model=None)`, `dymola_script` omits the `problem` argument
from the generated command line and ignores `params` (the run-log row's
model-and-parameters field is empty), and `dymosim` reuses the last stored
model path rather than failing — `run(None)` behaves exactly like `run` of
the stored model. -/
theorem claim_C9 (s : dymola_script) (params params2 callOptions : OptionMap)
    (plat : Platform) (s2 : dymosim) (fs : FS) (m : String)
    (hprob : acontains "problem" (aupdate s.options callOptions) = false)
    (hm : s2.currentModel = some m) :
    dymola_script.run s Option.none params callOptions
      = dymola_script.run s Option.none params2 callOptions ∧
    (dymola_script.run s Option.none params callOptions).runLog
      = s.runLog ++ [[toString (s.nRuns + 1), s.command,
          pySlice1m1 (renderParamDict (aupdate s.options callOptions)), ""]] ∧
    (dymola_script.run s Option.none params callOptions).script
      = s.script ++
        (["// Run " ++ toString (s.nRuns + 1),
          "ok = " ++ s.command
            ++ renderParamDict (aupdate s.options callOptions) ++ ";",
          "if ok then",
          "    savelog();",
          "    dest = destination + \"" ++ toString (s.nRuns + 1) ++ "/\";",
          "    createDirectory(dest);"]
         ++ s.results.map
              (fun r => "    copy(\"" ++ r ++ "\", dest + \"" ++ r ++ "\", true);")
         ++ ["end if;", "clearlog();", ""]) ∧
    dymosim.run plat s2 fs Option.none params callOptions
      = dymosim.run plat s2 fs (some m) params callOptions := by
  refine ⟨rfl, rfl, ?_, ?_⟩
  · unfold dymola_script.run
    dsimp only
    rw [aset_not_contains hprob, renderParamDict_append_none]
    simp [String.append_assoc]
  · obtain ⟨c, rd, res, op, nr, np, cm, rl⟩ := s2
    cases hm
    rfl

/-- Witness for C9 at a concrete input: a fresh script session with no
`problem` option anywhere, and an active `dymosim` session whose stored
model is `dymosim`. -/
theorem claim_C9_witness :
    acontains "problem" (aupdate scriptFresh.options ([] : OptionMap)) = false ∧
    dsimActive.currentModel = some "dymosim" ∧
    (dymola_script.run scriptFresh Option.none [("x", Val.num 3)] []
       = dymola_script.run scriptFresh Option.none [] [] ∧
     (dymola_script.run scriptFresh Option.none [("x", Val.num 3)] []).runLog
       = scriptFresh.runLog ++ [[toString (scriptFresh.nRuns + 1),
           scriptFresh.command,
           pySlice1m1 (renderParamDict (aupdate scriptFresh.options [])), ""]] ∧
     (dymola_script.run scriptFresh Option.none [("x", Val.num 3)] []).script
       = scriptFresh.script ++
         (["// Run " ++ toString (scriptFresh.nRuns + 1),
           "ok = " ++ scriptFresh.command
             ++ renderParamDict (aupdate scriptFresh.options []) ++ ";",
           "if ok then",
           "    savelog();",
           "    dest = destination + \"" ++ toString (scriptFresh.nRuns + 1)
             ++ "/\";",
           "    createDirectory(dest);"]
          ++ scriptFresh.results.map
               (fun r => "    copy(\"" ++ r ++ "\", dest + \"" ++ r ++ "\", true);")
          ++ ["end if;", "clearlog();", ""]) ∧
     dymosim.run posix dsimActive fsCont Option.none [("x", Val.num 3)] []
       = dymosim.run posix dsimActive fsCont (some "dymosim") [("x", Val.num 3)] []) :=
  ⟨by decide, rfl,
   claim_C9 scriptFresh [("x", Val.num 3)] [] [] posix dsimActive fsCont
     "dymosim" (by decide) rfl⟩

theorem startstop_lookup (callOptions : OptionMap) (base : OptionMap)
    (t duration : Int) :
    alookup "StartTime"
        (aupdate base (aset (aset callOptions "StartTime" (Val.num t))
          "StopTime" (Val.num (t + duration)))) = some (Val.num t) ∧
    alookup "StopTime"
        (aupdate base (aset (aset callOptions "StartTime" (Val.num t))
          "StopTime" (Val.num (t + duration)))) = some (Val.num (t + duration)) := by
  have hne : ("StartTime" : String) ≠ "StopTime" := by decide
  constructor
  · apply alookup_aupdate_const
    · intro q hq hq1
      have hq2 : q.1 ≠ "StopTime" := by rw [hq1]; exact hne
      have hq3 := mem_aset_key_ne hq hq2
      exact mem_aset_key_eq hq3 hq1
    · exact acontains_aset_of (acontains_aset_self callOptions _ _) _ _
  · apply alookup_aupdate_const
    · intro q hq hq1
      exact mem_aset_key_eq hq hq1
    · exact acontains_aset_self _ _ _

/-- C4: for every `continue_run(duration, params, **options)` call on a
`dymosim` session with an active run, the previous period's final-values
file (`dsfinal.txt` in the run's results directory) is moved to become the
new period's initialization file, and the options passed to the shared
`_run` routine (and written into that file) have `StartTime` equal to the
start time recorded in the moved file and `StopTime` equal to that start
time plus `duration`, overwriting any caller-supplied values. -/
theorem claim_C4 (plat : Platform) (s : dymosim) (fs : FS) (duration : Int)
    (params callOptions : OptionMap) (p : Nat) (m : String) (df : DsinFile)
    (t : Int)
    (hp : s.nPeriods = some p)
    (hm : s.currentModel = some m)
    (hexe : fsIsFile fs (m ++ plat.exe) = true)
    (hfinal : alookup (joinPath (joinPath s.resultsDir (toString s.nRuns))
                 "dsfinal.txt") fs = some (File.dsin df))
    (hstart : alookup "StartTime" df.opts = some (Val.num t)) :
    (dymosim.continue_run plat s fs duration params callOptions).trace.take 2
      = [Event.moveFile
           (joinPath (joinPath s.resultsDir (toString s.nRuns)) "dsfinal.txt")
           (joinPath (joinPath s.resultsDir (toString s.nRuns))
             ("dsin" ++ toString (p + 1) ++ ".txt")),
         Event.writeOptions
           (joinPath (joinPath s.resultsDir (toString s.nRuns))
             ("dsin" ++ toString (p + 1) ++ ".txt"))
           (aupdate s.options (aset (aset callOptions "StartTime" (Val.num t))
             "StopTime" (Val.num (t + duration))))] ∧
    alookup "StartTime"
        (aupdate s.options (aset (aset callOptions "StartTime" (Val.num t))
          "StopTime" (Val.num (t + duration)))) = some (Val.num t) ∧
    alookup "StopTime"
        (aupdate s.options (aset (aset callOptions "StartTime" (Val.num t))
          "StopTime" (Val.num (t + duration))))
      = some (Val.num (t + duration)) := by
  refine ⟨?_, (startstop_lookup callOptions s.options t duration).1,
    (startstop_lookup callOptions s.options t duration).2⟩
  obtain ⟨c, rd, res, op, nr, np, cm, rl⟩ := s
  cases hp
  cases hm
  simp only [dymosim.continue_run, dymosim._paths, dymosimPathsCore, hexe,
    if_true, hfinal, readStartTime, alookup_aset_self, hstart, dymosim._run,
    writeOptionsFile]
  split
  · rfl
  · split
    · rfl
    · rfl

/-- Witness for C4 at a concrete input: continuing run 1 for 100 more
seconds moves `1/dsfinal.txt` (which records start time 2500) to
`1/dsin2.txt` and forces `StartTime=2500`, `StopTime=2600`, overriding the
caller's `StopTime=9`. -/
theorem claim_C4_witness :
    dsimActive.nPeriods = some 1 ∧
    dsimActive.currentModel = some "dymosim" ∧
    fsIsFile fsCont ("dymosim" ++ posix.exe) = true ∧
    alookup (joinPath (joinPath dsimActive.resultsDir (toString dsimActive.nRuns))
        "dsfinal.txt") fsCont
      = some (File.dsin ⟨[("StartTime", Val.num 2500)], []⟩) ∧
    alookup "StartTime" (⟨[("StartTime", Val.num 2500)], []⟩ : DsinFile).opts
      = some (Val.num 2500) ∧
    ((dymosim.continue_run posix dsimActive fsCont 100 []
         [("StopTime", Val.num 9)]).trace.take 2
       = [Event.moveFile
            (joinPath (joinPath dsimActive.resultsDir
              (toString dsimActive.nRuns)) "dsfinal.txt")
            (joinPath (joinPath dsimActive.resultsDir
              (toString dsimActive.nRuns)) ("dsin" ++ toString (1 + 1) ++ ".txt")),
          Event.writeOptions
            (joinPath (joinPath dsimActive.resultsDir
              (toString dsimActive.nRuns)) ("dsin" ++ toString (1 + 1) ++ ".txt"))
            (aupdate dsimActive.options
              (aset (aset [("StopTime", Val.num 9)] "StartTime" (Val.num 2500))
                "StopTime" (Val.num (2500 + 100))))] ∧
     alookup "StartTime"
         (aupdate dsimActive.options
           (aset (aset [("StopTime", Val.num 9)] "StartTime" (Val.num 2500))
             "StopTime" (Val.num (2500 + 100)))) = some (Val.num 2500) ∧
     alookup "StopTime"
         (aupdate dsimActive.options
           (aset (aset [("StopTime", Val.num 9)] "StartTime" (Val.num 2500))
             "StopTime" (Val.num (2500 + 100)))) = some (Val.num (2500 + 100))) :=
  ⟨rfl, rfl, rfl, rfl, rfl,
   claim_C4 posix dsimActive fsCont 100 [] [("StopTime", Val.num 9)] 1
     "dymosim" ⟨[("StartTime", Val.num 2500)], []⟩ 2500 rfl rfl rfl rfl rfl⟩

/-- Counterexample to C3 as stated: on a `dymosim` session whose base
OptionSet holds `StopTime=2500`, a successful `run` with no call-time
options writes a run-log row whose Options field is the empty string — the
rendering of the call-time overrides alone — while the merged mapping used
for the invocation renders as `StopTime=2500`. -/
theorem claim_C3_cex :
    (dymosim.run posix dsimFresh fsReady (some "dymosim") [] []).err
      = Option.none ∧
    (dymosim.run posix dsimFresh fsReady (some "dymosim") [] []).sess.runLog
      = [["1", "1", "", "dymosim", ""]] ∧
    pySlice1m1 (renderParamDict (aupdate dsimFresh.options ([] : OptionMap)))
      = "StopTime=2500" ∧
    (["1", "1", "", "dymosim", ""] : List String).getD 2 ""
      ≠ pySlice1m1 (renderParamDict (aupdate dsimFresh.options ([] : OptionMap))) := by
  refine ⟨by decide, by decide, by decide, by decide⟩

theorem run_cases (plat : Platform) (s : dymosim) (fs : FS)
    (model : Option String) (params options : OptionMap) :
    (∃ e,
      (dymosim._paths plat { s with nRuns := s.nRuns + 1, nPeriods := some 1 }
         model fs).res = Except.error e ∧
      dymosim.run plat s fs model params options
        = ⟨(dymosim._paths plat
              { s with nRuns := s.nRuns + 1, nPeriods := some 1 } model fs).sess,
           fs, [], some e⟩) ∨
    (∃ info fs1 tr1 f,
      (dymosim._paths plat { s with nRuns := s.nRuns + 1, nPeriods := some 1 }
         model fs).res = Except.ok info ∧
      alookup (joinPath info.modelDir
          (if info.modelBase = "dymosim" then "dsin.txt"
           else info.modelBase ++ "_dsin.txt")) fs1 = some f ∧
      dymosim.run plat s fs model params options
        = ⟨(dymosim._run plat
              (dymosim._paths plat
                { s with nRuns := s.nRuns + 1, nPeriods := some 1 } model fs).sess
              (aset fs1 info.dsinPath f) info.executable params options
              info.modelDir info.resultsDir info.dsinPath).sess,
           (dymosim._run plat
              (dymosim._paths plat
                { s with nRuns := s.nRuns + 1, nPeriods := some 1 } model fs).sess
              (aset fs1 info.dsinPath f) info.executable params options
              info.modelDir info.resultsDir info.dsinPath).fs,
           tr1 ++ (Event.copyFile
              (joinPath info.modelDir
                (if info.modelBase = "dymosim" then "dsin.txt"
                 else info.modelBase ++ "_dsin.txt")) info.dsinPath
             :: (dymosim._run plat
                  (dymosim._paths plat
                    { s with nRuns := s.nRuns + 1, nPeriods := some 1 } model fs).sess
                  (aset fs1 info.dsinPath f) info.executable params options
                  info.modelDir info.resultsDir info.dsinPath).trace),
           (dymosim._run plat
              (dymosim._paths plat
                { s with nRuns := s.nRuns + 1, nPeriods := some 1 } model fs).sess
              (aset fs1 info.dsinPath f) info.executable params options
              info.modelDir info.resultsDir info.dsinPath).err⟩) := by
  unfold dymosim.run
  dsimp only
  split
  next e heq => exact Or.inl ⟨e, heq, rfl⟩
  next info heq =>
    split
    next hlook =>
      exfalso
      rcases hg : fsIsFile fs (joinPath info.modelDir
          (if info.modelBase = "dymosim" then "dsin.txt"
           else info.modelBase ++ "_dsin.txt")) with _ | _
      · simp [hg, alookup_aset_self] at hlook
      · simp [hg] at hlook
        unfold fsIsFile at hg
        rw [hlook] at hg
        simp at hg
    next f hlook =>
      exact Or.inr ⟨info, _, _, f, heq, hlook, rfl⟩

theorem run_err_none_log (plat : Platform) (s : dymosim) (fs : FS)
    (model : Option String) (params options : OptionMap)
    (h : (dymosim.run plat s fs model params options).err = Option.none) :
    ∃ exeName, (dymosim.run plat s fs model params options).sess.runLog
      = s.runLog ++ [[toString (s.nRuns + 1), toString (1 : Nat),
          pySlice1m1 (renderParamDict options), exeName,
          pySlice1m1 (renderParamDict params)]] := by
  rcases run_cases plat s fs model params options with
    ⟨e, hres, heq⟩ | ⟨info, fs1, tr1, f, hres, hlook, heq⟩
  · rw [heq] at h
    exact absurd h (by simp)
  · rw [heq] at h ⊢
    rcases run_shared_cases plat
        ((dymosim._paths plat { s with nRuns := s.nRuns + 1, nPeriods := some 1 }
           model fs).sess)
        (aset fs1 info.dsinPath f) info.executable params options
        info.modelDir info.resultsDir info.dsinPath with
      ⟨hnp, heq2⟩ | ⟨period, hnp, h1, heq2⟩ | ⟨period, fsx, hnp, h1, h2, heq2⟩ |
        ⟨period, fsx, fsy, e, hnp, h1, h2, h3, heq2⟩ |
        ⟨period, fsx, fsy, hnp, h1, h2, h3, heq2⟩
    · rw [paths_sess_nPeriods] at hnp
      exact absurd hnp (by simp)
    · rw [heq2] at h
      exact absurd h (by simp)
    · rw [heq2] at h
      exact absurd h (by simp)
    · rw [heq2] at h
      exact absurd h (by simp)
    · have hper : some period = some 1 :=
        hnp.symm.trans (paths_sess_nPeriods plat _ model fs)
      obtain rfl : period = 1 := Option.some.inj hper
      refine ⟨info.executable, ?_⟩
      rw [heq2]
      simp [paths_sess_runLog, paths_sess_nRuns]

theorem cont_cases (plat : Platform) (s : dymosim) (fs : FS) (duration : Int)
    (params options : OptionMap) :
    (s.nPeriods = Option.none ∧
      dymosim.continue_run plat s fs duration params options
        = ⟨s, fs, [], some Err.noActiveRun⟩) ∨
    (∃ p e, s.nPeriods = some p ∧
      (dymosim._paths plat { s with nPeriods := some (p + 1) } Option.none fs).res
        = Except.error e ∧
      dymosim.continue_run plat s fs duration params options
        = ⟨{ s with nPeriods := some (p + 1) }, fs, [], some e⟩) ∨
    (∃ p info, s.nPeriods = some p ∧
      (dymosim._paths plat { s with nPeriods := some (p + 1) } Option.none fs).res
        = Except.ok info ∧
      alookup (joinPath info.resultsDir "dsfinal.txt") fs = Option.none ∧
      dymosim.continue_run plat s fs duration params options
        = ⟨{ s with nPeriods := some (p + 1) }, fs, [],
           some (Err.fileError (joinPath info.resultsDir "dsfinal.txt"))⟩) ∨
    (∃ p info f, s.nPeriods = some p ∧
      (dymosim._paths plat { s with nPeriods := some (p + 1) } Option.none fs).res
        = Except.ok info ∧
      alookup (joinPath info.resultsDir "dsfinal.txt") fs = some f ∧
      readStartTime (aset (aerase fs (joinPath info.resultsDir "dsfinal.txt"))
        info.dsinPath f) info.dsinPath = Option.none ∧
      dymosim.continue_run plat s fs duration params options
        = ⟨{ s with nPeriods := some (p + 1) },
           aset (aerase fs (joinPath info.resultsDir "dsfinal.txt"))
             info.dsinPath f,
           [Event.moveFile (joinPath info.resultsDir "dsfinal.txt") info.dsinPath],
           some (Err.fileError info.dsinPath)⟩) ∨
    (∃ p info f t, s.nPeriods = some p ∧
      (dymosim._paths plat { s with nPeriods := some (p + 1) } Option.none fs).res
        = Except.ok info ∧
      alookup (joinPath info.resultsDir "dsfinal.txt") fs = some f ∧
      readStartTime (aset (aerase fs (joinPath info.resultsDir "dsfinal.txt"))
        info.dsinPath f) info.dsinPath = some t ∧
      dymosim.continue_run plat s fs duration params options
        = ⟨(dymosim._run plat { s with nPeriods := some (p + 1) }
              (aset (aerase fs (joinPath info.resultsDir "dsfinal.txt"))
                info.dsinPath f)
              info.executable params
              (aset (aset options "StartTime" (Val.num t)) "StopTime"
                (Val.num (t + duration)))
              info.modelDir info.resultsDir info.dsinPath).sess,
           (dymosim._run plat { s with nPeriods := some (p + 1) }
              (aset (aerase fs (joinPath info.resultsDir "dsfinal.txt"))
                info.dsinPath f)
              info.executable params
              (aset (aset options "StartTime" (Val.num t)) "StopTime"
                (Val.num (t + duration)))
              info.modelDir info.resultsDir info.dsinPath).fs,
           Event.moveFile (joinPath info.resultsDir "dsfinal.txt") info.dsinPath
             :: (dymosim._run plat { s with nPeriods := some (p + 1) }
                  (aset (aerase fs (joinPath info.resultsDir "dsfinal.txt"))
                    info.dsinPath f)
                  info.executable params
                  (aset (aset options "StartTime" (Val.num t)) "StopTime"
                    (Val.num (t + duration)))
                  info.modelDir info.resultsDir info.dsinPath).trace,
           (dymosim._run plat { s with nPeriods := some (p + 1) }
              (aset (aerase fs (joinPath info.resultsDir "dsfinal.txt"))
                info.dsinPath f)
              info.executable params
              (aset (aset options "StartTime" (Val.num t)) "StopTime"
                (Val.num (t + duration)))
              info.modelDir info.resultsDir info.dsinPath).err⟩) := by
  unfold dymosim.continue_run
  split
  next hnp => exact Or.inl ⟨hnp, rfl⟩
  next p hnp =>
    dsimp only
    split
    next e heq =>
      refine Or.inr (Or.inl ⟨p, e, hnp, heq, ?_⟩)
      rw [paths_none_sess]
    next info heq =>
      split
      next hlook =>
        refine Or.inr (Or.inr (Or.inl ⟨p, info, hnp, heq, hlook, ?_⟩))
        rw [paths_none_sess]
      next f hlook =>
        split
        next hread =>
          refine Or.inr (Or.inr (Or.inr (Or.inl
            ⟨p, info, f, hnp, heq, hlook, hread, ?_⟩)))
          rw [paths_none_sess]
        next t hread =>
          refine Or.inr (Or.inr (Or.inr (Or.inr
            ⟨p, info, f, t, hnp, heq, hlook, hread, ?_⟩)))
          rw [paths_none_sess]

theorem cont_err_none_log (plat : Platform) (s : dymosim) (fs : FS)
    (duration : Int) (params options : OptionMap) (p : Nat)
    (hp : s.nPeriods = some p)
    (h : (dymosim.continue_run plat s fs duration params options).err
           = Option.none) :
    ∃ exeName t,
      (dymosim.continue_run plat s fs duration params options).sess.runLog
        = s.runLog ++ [[toString s.nRuns, toString (p + 1),
            pySlice1m1 (renderParamDict
              (aset (aset options "StartTime" (Val.num t)) "StopTime"
                (Val.num (t + duration)))),
            exeName, pySlice1m1 (renderParamDict params)]] := by
  rcases cont_cases plat s fs duration params options with
    ⟨hnp, heq⟩ | ⟨q, e, hq, hres, heq⟩ | ⟨q, info, hq, hres, hlook, heq⟩ |
      ⟨q, info, f, hq, hres, hlook, hread, heq⟩ |
      ⟨q, info, f, t, hq, hres, hlook, hread, heq⟩
  · rw [hnp] at hp
    exact Option.noConfusion hp
  · rw [heq] at h
    exact absurd h (by simp)
  · rw [heq] at h
    exact absurd h (by simp)
  · rw [heq] at h
    exact absurd h (by simp)
  · obtain rfl : q = p := Option.some.inj (hq.symm.trans hp)
    rw [heq] at h ⊢
    rcases run_shared_cases plat { s with nPeriods := some (q + 1) }
        (aset (aerase fs (joinPath info.resultsDir "dsfinal.txt"))
          info.dsinPath f)
        info.executable params
        (aset (aset options "StartTime" (Val.num t)) "StopTime"
          (Val.num (t + duration)))
        info.modelDir info.resultsDir info.dsinPath with
      ⟨hnp2, heq2⟩ | ⟨period, hnp2, h1, heq2⟩ | ⟨period, fsx, hnp2, h1, h2, heq2⟩ |
        ⟨period, fsx, fsy, e, hnp2, h1, h2, h3, heq2⟩ |
        ⟨period, fsx, fsy, hnp2, h1, h2, h3, heq2⟩
    · exact absurd hnp2 (by simp)
    · rw [heq2] at h
      exact absurd h (by simp)
    · rw [heq2] at h
      exact absurd h (by simp)
    · rw [heq2] at h
      exact absurd h (by simp)
    · obtain rfl : period = q + 1 := by
        have := hnp2
        simp at this
        exact this.symm
      refine ⟨info.executable, t, ?_⟩
      rw [heq2]

/-- C3 amended: the run-log row's Options field equals the rendering of the
merged mapping (base overlaid with call-time overrides) for
`dymola_script.run`, but for `dymosim` it equals the rendering of the
call-time overrides only — for `run` the overrides as passed, for
`continue_run` the overrides with `StartTime`/`StopTime` forced from the
recorded start time and the duration.  The base options reach only the
initialization file, not the log. -/
theorem claim_C3_amended :
    (∀ (s : dymola_script) (model : Option String) (params options : OptionMap),
       ∃ mp, (dymola_script.run s model params options).runLog
         = s.runLog ++ [[toString (s.nRuns + 1), s.command,
             pySlice1m1 (renderParamDict (aupdate s.options options)), mp]]) ∧
    (∀ (plat : Platform) (s : dymosim) (fs : FS) (model : Option String)
       (params options : OptionMap),
       (dymosim.run plat s fs model params options).err = Option.none →
       ∃ exeName, (dymosim.run plat s fs model params options).sess.runLog
         = s.runLog ++ [[toString (s.nRuns + 1), toString (1 : Nat),
             pySlice1m1 (renderParamDict options), exeName,
             pySlice1m1 (renderParamDict params)]]) ∧
    (∀ (plat : Platform) (s : dymosim) (fs : FS) (duration : Int)
       (params options : OptionMap) (p : Nat),
       s.nPeriods = some p →
       (dymosim.continue_run plat s fs duration params options).err
         = Option.none →
       ∃ exeName t,
         (dymosim.continue_run plat s fs duration params options).sess.runLog
           = s.runLog ++ [[toString s.nRuns, toString (p + 1),
               pySlice1m1 (renderParamDict
                 (aset (aset options "StartTime" (Val.num t)) "StopTime"
                   (Val.num (t + duration)))),
               exeName, pySlice1m1 (renderParamDict params)]]) :=
  ⟨fun _ _ _ _ => ⟨_, rfl⟩, run_err_none_log, cont_err_none_log⟩

/-- Witness for the amended C3 at a concrete input: a successful `dymosim`
run with base option `StopTime=2500` and empty call-time options logs an
empty Options field. -/
theorem claim_C3_amended_witness :
    (dymosim.run posix dsimFresh fsReady (some "dymosim") [] []).err
      = Option.none ∧
    (∃ exeName,
      (dymosim.run posix dsimFresh fsReady (some "dymosim") [] []).sess.runLog
        = dsimFresh.runLog ++ [[toString (dsimFresh.nRuns + 1),
            toString (1 : Nat), pySlice1m1 (renderParamDict ([] : OptionMap)),
            exeName, pySlice1m1 (renderParamDict ([] : OptionMap))]]) :=
  ⟨by decide,
   claim_C3_amended.2.1 posix dsimFresh fsReady (some "dymosim") [] []
     (by decide)⟩

/-- Counterexample to C10 as stated: on an `fmi` session with no result
prefix, `continue_run` leaves `n_runs` at 1 as claimed, but the result file
name it computes (`ChuaCircuit1.txt`, from the FMU's model identifier) is
not identical to the one the immediately preceding `run` used
(`examples/ChuaCircuit.fmu1.txt`, from the model path argument). -/
theorem claim_C10_cex :
    ((fmi.run fmuFilesEx fmiNoRes "examples/ChuaCircuit.fmu" 0 10 []).map
       (fun r => r.1.nRuns) = some 1) ∧
    ((fmi.run fmuFilesEx fmiNoRes "examples/ChuaCircuit.fmu" 0 10 []).map
       (fun r => (fmi.continue_run r.1 r.2.2 5 []).1.nRuns) = some 1) ∧
    ((fmi.run fmuFilesEx fmiNoRes "examples/ChuaCircuit.fmu" 0 10 []).map
       (fun r => r.2.1.resultFileName) = some "examples/ChuaCircuit.fmu1.txt") ∧
    ((fmi.run fmuFilesEx fmiNoRes "examples/ChuaCircuit.fmu" 0 10 []).map
       (fun r => (fmi.continue_run r.1 r.2.2 5 []).2.1.resultFileName)
       = some "ChuaCircuit1.txt") ∧
    ("examples/ChuaCircuit.fmu1.txt" : String) ≠ "ChuaCircuit1.txt" := by
  refine ⟨by decide, by decide, by decide, by decide, by decide⟩

/-- C10 amended: `fmi.continue_run` leaves the session — in particular its
run counter `n_runs` — unchanged, and whenever the session result prefix is
non-empty the result file name it computes is identical to the one used by
the immediately preceding `run` call; without a prefix, `run` names the file
after the model path argument while `continue_run` names it after the FMU's
model identifier, so the names coincide only when those agree. -/
theorem claim_C10_amended :
    (∀ (s : fmi) (fmu : Fmu) (duration : Int) (params : OptionMap),
       (fmi.continue_run s fmu duration params).1 = s) ∧
    (∀ (fmuFiles : List (String × FmuDesc)) (s : fmi) (model : String)
       (t0 t1 : Int) (params : OptionMap) (s1 : fmi) (c1 : SimCall) (f1 : Fmu)
       (duration : Int) (params2 : OptionMap),
       fmi.run fmuFiles s model t0 t1 params = some (s1, c1, f1) →
       s.result ≠ "" →
       s1.nRuns = s.nRuns + 1 ∧
       (fmi.continue_run s1 f1 duration params2).1.nRuns = s1.nRuns ∧
       (fmi.continue_run s1 f1 duration params2).2.1.resultFileName
         = c1.resultFileName) := by
  refine ⟨fun _ _ _ _ => rfl, ?_⟩
  intro fmuFiles s model t0 t1 params s1 c1 f1 duration params2 hrun hres
  rcases hL : fmi.load fmuFiles model with _ | fmu
  · rw [fmi.run, hL] at hrun
    exact Option.noConfusion hrun
  · rw [fmi.run, hL] at hrun
    simp only [fmuSimulate, Option.some.injEq, Prod.mk.injEq] at hrun
    obtain ⟨hs1, hc1, hf1⟩ := hrun
    subst hs1
    subst hc1
    subst hf1
    refine ⟨rfl, rfl, ?_⟩
    simp only [fmi.continue_run, fmuSimulate]
    have hres1 : ¬ (({ s with nRuns := s.nRuns + 1 } : fmi).result = "") := hres
    rw [if_neg hres1, if_neg hres1]

/-- Witness for the amended C10 at a concrete input: with result prefix
`results/run`, the run names its file `results/run1.txt` and the following
`continue_run` computes the same name with `n_runs` unchanged. -/
theorem claim_C10_amended_witness :
    fmi.run fmuFilesEx fmiWithRes "examples/ChuaCircuit.fmu" 0 10 []
      = some ({ result := "results/run", fmuOptions := [], nRuns := 1 },
              ⟨0, 10, "results/run1.txt"⟩, ⟨"ChuaCircuit", 10⟩) ∧
    fmiWithRes.result ≠ "" ∧
    (({ result := "results/run", fmuOptions := [], nRuns := 1 } : fmi).nRuns
        = fmiWithRes.nRuns + 1 ∧
     (fmi.continue_run { result := "results/run", fmuOptions := [], nRuns := 1 }
        ⟨"ChuaCircuit", 10⟩ 5 []).1.nRuns
        = ({ result := "results/run", fmuOptions := [], nRuns := 1 } : fmi).nRuns ∧
     (fmi.continue_run { result := "results/run", fmuOptions := [], nRuns := 1 }
        ⟨"ChuaCircuit", 10⟩ 5 []).2.1.resultFileName
        = (⟨0, 10, "results/run1.txt"⟩ : SimCall).resultFileName) :=
  ⟨by decide, by decide,
   claim_C10_amended.2 fmuFilesEx fmiWithRes "examples/ChuaCircuit.fmu" 0 10 []
     { result := "results/run", fmuOptions := [], nRuns := 1 }
     ⟨0, 10, "results/run1.txt"⟩ ⟨"ChuaCircuit", 10⟩ 5 []
     (by decide) (by decide)⟩
